import Mathlib

/-!
Shallow embedding of `app/recipe/views.py` (Django REST framework recipe API):
the filtered collection query resolvers (`RecipeViewSet.get_queryset`,
`BaseRecipeAttrViewSet.get_queryset`), the query-parameter parsing helpers
(`_params_to_ints`, the `assigned_only` coercion), and the ownership
stamping write hooks (`perform_create` / `perform_update`).

Modelling conventions:
* A Django queryset is a `List` of rows.  `filter(tags__id__in=ids)` is an
  SQL join against the many-to-many table, and therefore yields one row per
  matching association; we model it with `List.bind`, so a recipe matching
  two of the requested tag ids appears twice before `.distinct()`.
* `.order_by("-id")` / `.order_by("-name")` is sorting by the descending
  relation; `.distinct()` is `List.dedup` (duplicate rows are identical, so
  which copy survives is immaterial).
* Python `int(s)` either returns an integer or raises `ValueError`; we model
  it as `Option Int`.  An uncaught `ValueError` aborts the request, which the
  spec names `InvalidFilterFormat`; the resolvers return `Except ApiError`.
* Query parameters are `Option String` (`none` = absent).  Python truthiness
  of an optional string (`if tags:`) is "present and non-empty".
-/

namespace RecipeApi

/-- A recipe row: `id` primary key, `user` the owning user's id, and the
many-to-many associations `tags` / `ingredients` as lists of attribute ids
(`core.models.Recipe`). -/
structure Recipe where
  id : Int
  user : Nat
  title : String
  tags : List Int
  ingredients : List Int
deriving DecidableEq, Repr

/-- A recipe attribute row (a `Tag` or an `Ingredient`): `id`, owning `user`,
display `name`, and `recipes` the ids of the recipes it is assigned to
(the reverse side of the many-to-many relation). -/
structure Attr where
  id : Int
  user : Nat
  name : String
  recipes : List Int
deriving DecidableEq, Repr

/-- The error surfaced when a query parameter fails integer conversion.
In the source this is an uncaught Python `ValueError` raised by `int()`;
the spec names the resulting rejection `InvalidFilterFormat`. -/
inductive ApiError where
  | invalidFilterFormat
deriving DecidableEq, Repr

/-- Decimal value of a non-empty all-digit character sequence (`none`
otherwise); the digit-string part of Python's `int()` grammar. -/
def digitsNatAux (acc : Nat) : List Char → Option Nat
  | [] => some acc
  | c :: cs =>
    if c.isDigit then digitsNatAux (acc * 10 + (c.toNat - 48)) cs else none

/-- Non-empty digit string to its value. -/
def digitsNat : List Char → Option Nat
  | [] => none
  | cs => digitsNatAux 0 cs

/-- Strip leading and trailing whitespace from a character sequence. -/
def stripWs (cs : List Char) : List Char :=
  ((cs.dropWhile Char.isWhitespace).reverse.dropWhile Char.isWhitespace).reverse

/-- Python `int(s)` on a string: strip surrounding whitespace, allow one
leading sign, then a non-empty digit string; anything else raises
(`none`). -/
def pyInt? (s : String) : Option Int :=
  match stripWs s.data with
  | '-' :: rest => (digitsNat rest).map (fun n => -(n : Int))
  | '+' :: rest => (digitsNat rest).map (fun n => (n : Int))
  | t => (digitsNat t).map (fun n => (n : Int))

/-- Split a character sequence on `','`, accumulating the current token in
reverse; Python's `str.split(",")` keeps empty tokens. -/
def splitCommaAux : List Char → List Char → List String
  | [], acc => [String.mk acc.reverse]
  | c :: cs, acc =>
    if c = ',' then String.mk acc.reverse :: splitCommaAux cs []
    else splitCommaAux cs (c :: acc)

/-- Python `s.split(",")`. -/
def splitComma (s : String) : List String :=
  splitCommaAux s.data []

/-- The list comprehension `[int(str_id) for str_id in qs.split(",")]`:
converts every token or raises on the first invalid one. -/
def intsOfTokens : List String → Option (List Int)
  | [] => some []
  | s :: rest =>
    match pyInt? s, intsOfTokens rest with
    | some n, some ns => some (n :: ns)
    | _, _ => none

/-- `RecipeViewSet._params_to_ints`: split the raw parameter on `","` and
convert each token to an integer. -/
def params_to_ints (qs : String) : Option (List Int) :=
  intsOfTokens (splitComma qs)

/-- Python truthiness of an optional string parameter (`if tags:`):
present and non-empty. -/
def truthy : Option String → Bool
  | none => false
  | some s => s ≠ ""

/-- `queryset.filter(assoc__id__in=ids)`: SQL join against the many-to-many
table, one output row per association whose id is in `ids`. -/
def joinFilter (qs : List Recipe) (ids : List Int) (assoc : Recipe → List Int) :
    List Recipe :=
  qs.flatMap (fun r => ((assoc r).filter (fun i => decide (i ∈ ids))).map (fun _ => r))

/-- One optional id-list filter step of `RecipeViewSet.get_queryset`:
skipped when the parameter is absent or empty, raises on a malformed
token, otherwise applies the join filter. -/
def filterByParam (qs : List Recipe) (param : Option String)
    (assoc : Recipe → List Int) : Except ApiError (List Recipe) :=
  match param with
  | none => .ok qs
  | some s =>
    if s = "" then .ok qs
    else
      match params_to_ints s with
      | none => .error .invalidFilterFormat
      | some ids => .ok (joinFilter qs ids assoc)

/-- `order_by("-id")`: descending by primary key. -/
def recipeDescId (a b : Recipe) : Prop := b.id ≤ a.id

instance : DecidableRel recipeDescId :=
  fun a b => inferInstanceAs (Decidable (b.id ≤ a.id))

instance : IsTotal Recipe recipeDescId := ⟨fun a b => le_total b.id a.id⟩

instance : IsTrans Recipe recipeDescId := ⟨fun _ _ _ hab hbc => le_trans hbc hab⟩

/-- Lexicographic (code-point) comparison of character sequences:
`charListLe as bs` iff `as` is lexicographically at most `bs`. -/
def charListLe : List Char → List Char → Bool
  | [], _ => true
  | _ :: _, [] => false
  | a :: as, b :: bs =>
    if a < b then true
    else if b < a then false
    else charListLe as bs

/-- Lexicographic order on strings, by code point. -/
def strLe (a b : String) : Bool := charListLe a.data b.data

/-- `order_by("-name")`: descending lexicographic by display name. -/
def attrDescName (a b : Attr) : Prop := strLe b.name a.name = true

instance : DecidableRel attrDescName :=
  fun a b => inferInstanceAs (Decidable (strLe b.name a.name = true))

/-- `RecipeViewSet.get_queryset`: apply the optional `tags` filter, then the
optional `ingredients` filter, then scope to the requesting user, order by
id descending, and de-duplicate. -/
def recipe_get_queryset (db : List Recipe) (tags ingredients : Option String)
    (user : Nat) : Except ApiError (List Recipe) :=
  match filterByParam db tags Recipe.tags with
  | .error e => .error e
  | .ok q1 =>
    match filterByParam q1 ingredients Recipe.ingredients with
    | .error e => .error e
    | .ok q2 =>
      .ok (((q2.filter (fun r => decide (r.user = user))).insertionSort
        recipeDescId).dedup)

/-- `bool(int(request.query_params.get("assigned_only", 0)))`: absent means
the integer `0`; a present string goes through `int()` (raising on a
non-integer) and is then truthy iff non-zero. -/
def parse_assigned_only : Option String → Option Bool
  | none => some false
  | some s => (pyInt? s).map (fun n => decide (n ≠ 0))

/-- `BaseRecipeAttrViewSet.get_queryset`: coerce `assigned_only`; when truthy
keep only attributes assigned to at least one recipe
(`filter(recipe__isnull=False)`, a join producing one row per assigned
recipe); then scope to the requesting user, order by name descending, and
de-duplicate. -/
def attr_get_queryset (db : List Attr) (assigned_only : Option String)
    (user : Nat) : Except ApiError (List Attr) :=
  match parse_assigned_only assigned_only with
  | none => .error .invalidFilterFormat
  | some b =>
    let qs := if b then db.flatMap (fun a => a.recipes.map (fun _ => a)) else db
    .ok (((qs.filter (fun a => decide (a.user = user))).insertionSort
      attrDescName).dedup)

/-- The validated request payload for creating or updating a recipe, as the
serializer hands it to `save`.  `user` is the owner reference a client may
try to smuggle into the payload. -/
structure ValidatedData where
  user : Option Nat
  title : String
  tags : List Int
  ingredients : List Int
deriving DecidableEq, Repr

/-- Modelled from the spec: `recipe/serializers.py` is not under `src/`; per
the spec's write-path contract the serializer's `save(**kwargs)` merges the
keyword overrides over the validated payload, keyword arguments taking
precedence, and writes the result onto the target row. -/
def serializer_save (base : Recipe) (vd : ValidatedData) (kwargsUser : Option Nat) :
    Recipe :=
  { base with
    title := vd.title
    tags := vd.tags
    ingredients := vd.ingredients
    user :=
      match kwargsUser with
      | some u => u
      | none => vd.user.getD base.user }

/-- `RecipeViewSet.perform_create`: `serializer.save(user=self.request.user)`
on a fresh row (`freshId` is the primary key the persistence layer
assigns). -/
def perform_create (vd : ValidatedData) (requestUser : Nat) (freshId : Int) :
    Recipe :=
  let blank : Recipe :=
    { id := freshId, user := requestUser, title := "", tags := [], ingredients := [] }
  serializer_save blank vd (some requestUser)

/-- `RecipeViewSet.perform_update`: `serializer.save(user=self.request.user)`
on the existing instance. -/
def perform_update (inst : Recipe) (vd : ValidatedData) (requestUser : Nat) :
    Recipe :=
  serializer_save inst vd (some requestUser)

/-- The persistent store the viewsets read: all recipe, tag and ingredient
rows. -/
structure Store where
  recipes : List Recipe
  tags : List Attr
  ingredients : List Attr
deriving DecidableEq, Repr

/-- A recipe list request: resolve the queryset against the store and return
the (possibly failing) result together with the store after the request. -/
def list_recipes_request (s : Store) (tags ingredients : Option String)
    (user : Nat) : Except ApiError (List Recipe) × Store :=
  (recipe_get_queryset s.recipes tags ingredients user, s)

/-- A tag list request (`TagViewSet`, `queryset = Tag.objects.all()`). -/
def list_tags_request (s : Store) (assigned_only : Option String) (user : Nat) :
    Except ApiError (List Attr) × Store :=
  (attr_get_queryset s.tags assigned_only user, s)

/-- An ingredient list request (`IngredientViewSet`). -/
def list_ingredients_request (s : Store) (assigned_only : Option String)
    (user : Nat) : Except ApiError (List Attr) × Store :=
  (attr_get_queryset s.ingredients assigned_only user, s)

/-! ### Supporting lemmas -/

theorem charListLe_cons_iff {a b : Char} {as bs : List Char} :
    charListLe (a :: as) (b :: bs) = true ↔
      a < b ∨ (a = b ∧ charListLe as bs = true) := by
  show (if a < b then true else if b < a then false else charListLe as bs) = true ↔ _
  split_ifs with h1 h2
  · simp [h1]
  · constructor
    · intro h
      simp at h
    · rintro (h | ⟨rfl, h⟩)
      · exact absurd h h1
      · exact absurd h2 (lt_irrefl a)
  · have hab : a = b := le_antisymm (not_lt.mp h2) (not_lt.mp h1)
    subst hab
    simp [h1]

theorem charListLe_total : ∀ as bs : List Char,
    charListLe as bs = true ∨ charListLe bs as = true := by
  intro as
  induction as with
  | nil => intro bs; exact Or.inl rfl
  | cons a as ih =>
    intro bs
    cases bs with
    | nil => exact Or.inr rfl
    | cons b bs =>
      rcases lt_trichotomy a b with h | h | h
      · exact Or.inl (charListLe_cons_iff.mpr (Or.inl h))
      · subst h
        rcases ih bs with h' | h'
        · exact Or.inl (charListLe_cons_iff.mpr (Or.inr ⟨rfl, h'⟩))
        · exact Or.inr (charListLe_cons_iff.mpr (Or.inr ⟨rfl, h'⟩))
      · exact Or.inr (charListLe_cons_iff.mpr (Or.inl h))

theorem charListLe_trans : ∀ as bs cs : List Char,
    charListLe as bs = true → charListLe bs cs = true →
      charListLe as cs = true := by
  intro as
  induction as with
  | nil => intro bs cs h1 h2; rfl
  | cons a as ih =>
    intro bs cs h1 h2
    cases bs with
    | nil => simp [charListLe] at h1
    | cons b bs =>
      cases cs with
      | nil => simp [charListLe] at h2
      | cons c cs =>
        rw [charListLe_cons_iff] at h1 h2 ⊢
        rcases h1 with h1 | ⟨rfl, h1⟩
        · rcases h2 with h2 | ⟨rfl, h2⟩
          · exact Or.inl (h1.trans h2)
          · exact Or.inl h1
        · rcases h2 with h2 | ⟨rfl, h2⟩
          · exact Or.inl h2
          · exact Or.inr ⟨rfl, ih bs cs h1 h2⟩

instance : IsTotal Attr attrDescName :=
  ⟨fun a b => charListLe_total b.name.data a.name.data⟩

instance : IsTrans Attr attrDescName :=
  ⟨fun a b c hab hbc => charListLe_trans c.name.data b.name.data a.name.data hbc hab⟩

theorem mem_joinFilter {qs : List Recipe} {ids : List Int}
    {assoc : Recipe → List Int} {r : Recipe} :
    r ∈ joinFilter qs ids assoc ↔ r ∈ qs ∧ ∃ t ∈ assoc r, t ∈ ids := by
  simp only [joinFilter, List.mem_flatMap, List.mem_map, List.mem_filter,
    decide_eq_true_eq]
  constructor
  · rintro ⟨a, ha, ⟨t, ⟨ht, hti⟩, rfl⟩⟩
    exact ⟨ha, t, ht, hti⟩
  · rintro ⟨hr, t, ht, hti⟩
    exact ⟨r, hr, t, ⟨ht, hti⟩, rfl⟩

theorem mem_recipeFinal {qs : List Recipe} {u : Nat} {r : Recipe} :
    r ∈ ((qs.filter (fun r => decide (r.user = u))).insertionSort
      recipeDescId).dedup ↔ r ∈ qs ∧ r.user = u := by
  rw [List.mem_dedup, (List.perm_insertionSort recipeDescId _).mem_iff,
    List.mem_filter]
  simp

theorem mem_attrFinal {qs : List Attr} {u : Nat} {a : Attr} :
    a ∈ ((qs.filter (fun x => decide (x.user = u))).insertionSort
      attrDescName).dedup ↔ a ∈ qs ∧ a.user = u := by
  rw [List.mem_dedup, (List.perm_insertionSort attrDescName _).mem_iff,
    List.mem_filter]
  simp

theorem mem_assignedJoin {db : List Attr} {a : Attr} :
    a ∈ db.flatMap (fun x => x.recipes.map (fun _ => x)) ↔
      a ∈ db ∧ a.recipes ≠ [] := by
  simp only [List.mem_flatMap, List.mem_map]
  constructor
  · rintro ⟨b, hb, ⟨t, ht, rfl⟩⟩
    exact ⟨hb, List.ne_nil_of_mem ht⟩
  · rintro ⟨ha, hne⟩
    obtain ⟨t, ht⟩ := List.exists_mem_of_ne_nil _ hne
    exact ⟨a, ha, t, ht, rfl⟩

theorem recipe_get_queryset_ok_shape {db : List Recipe} {t i : Option String}
    {u : Nat} {l : List Recipe} (h : recipe_get_queryset db t i u = .ok l) :
    ∃ q : List Recipe,
      l = ((q.filter (fun r => decide (r.user = u))).insertionSort
        recipeDescId).dedup := by
  unfold recipe_get_queryset at h
  split at h
  · cases h
  · split at h
    · cases h
    · simp only [Except.ok.injEq] at h
      exact ⟨_, h.symm⟩

theorem attr_get_queryset_ok_shape {db : List Attr} {p : Option String}
    {u : Nat} {l : List Attr} (h : attr_get_queryset db p u = .ok l) :
    ∃ q : List Attr,
      l = ((q.filter (fun a => decide (a.user = u))).insertionSort
        attrDescName).dedup := by
  unfold attr_get_queryset at h
  split at h
  · cases h
  · simp only [Except.ok.injEq] at h
    exact ⟨_, h.symm⟩

theorem intsOfTokens_eq_none {toks : List String} {s : String}
    (hs : s ∈ toks) (hbad : pyInt? s = none) : intsOfTokens toks = none := by
  induction toks with
  | nil => cases hs
  | cons a rest ih =>
    rcases List.mem_cons.mp hs with rfl | hmem
    · simp [intsOfTokens, hbad]
    · unfold intsOfTokens
      rw [ih hmem]
      cases pyInt? a <;> rfl

/-! ### Claims -/

/-- C1: for every collection, requesting owner, and combination of filter
parameters (tags, ingredients, assigned_only, present or absent), every
entity in a successfully resolved list is owned by the requesting owner;
an entity owned by any other owner is never returned. -/
theorem claim_owner_scoped_results :
    (∀ (db : List Recipe) (tags ingredients : Option String) (u : Nat)
        (l : List Recipe),
      recipe_get_queryset db tags ingredients u = .ok l →
        ∀ r ∈ l, r.user = u) ∧
    (∀ (db : List Attr) (assigned_only : Option String) (u : Nat)
        (l : List Attr),
      attr_get_queryset db assigned_only u = .ok l → ∀ a ∈ l, a.user = u) := by
  constructor
  · intro db tags ingredients u l h r hr
    obtain ⟨q, rfl⟩ := recipe_get_queryset_ok_shape h
    exact (mem_recipeFinal.mp hr).2
  · intro db p u l h a ha
    obtain ⟨q, rfl⟩ := attr_get_queryset_ok_shape h
    exact (mem_attrFinal.mp ha).2

/-- Witness for C1 at a concrete store: a recipe and a tag owned by user 1
are returned to user 1 and carry owner 1. -/
theorem claim_owner_scoped_results_witness :
    (⟨5, 1, "curry", [9], []⟩ : Recipe).user = 1 ∧
    (⟨3, 1, "vegan", [5]⟩ : Attr).user = 1 :=
  ⟨claim_owner_scoped_results.1 [⟨5, 1, "curry", [9], []⟩] none none 1
      [⟨5, 1, "curry", [9], []⟩] rfl ⟨5, 1, "curry", [9], []⟩ (by simp),
    claim_owner_scoped_results.2 [⟨3, 1, "vegan", [5]⟩] none 1
      [⟨3, 1, "vegan", [5]⟩] rfl ⟨3, 1, "vegan", [5]⟩ (by simp)⟩

/-- C2: creating or updating a record stores the authenticated requesting
owner in the owner field, even when the payload smuggles a different
owner: creating as owner `y` with owner `x ≠ y` spoofed in the payload
yields a record owned by `y`. -/
theorem claim_ownership_stamping :
    ∀ (vd : ValidatedData) (x y : Nat) (freshId : Int) (inst : Recipe),
      vd.user = some x → x ≠ y →
      (perform_create vd y freshId).user = y ∧
      (perform_update inst vd y).user = y := by
  intro vd x y freshId inst hvd hxy
  exact ⟨rfl, rfl⟩

/-- Witness for C2: payload spoofing owner 2 while authenticated as owner 1
stores owner 1 on both create and update. -/
theorem claim_ownership_stamping_witness :
    (⟨some 2, "cake", [4], [6]⟩ : ValidatedData).user = some 2 ∧ (2 : Nat) ≠ 1 ∧
    (perform_create ⟨some 2, "cake", [4], [6]⟩ 1 10).user = 1 ∧
    (perform_update ⟨7, 2, "old", [], []⟩ ⟨some 2, "cake", [4], [6]⟩ 1).user = 1 := by
  have h := claim_ownership_stamping ⟨some 2, "cake", [4], [6]⟩ 2 1 10
    ⟨7, 2, "old", [], []⟩ rfl (by decide)
  exact ⟨rfl, by decide, h.1, h.2⟩

/-- C9: list-query resolution is read-only: resolving a recipe, tag or
ingredient list request leaves the store exactly as it was, for every
store, owner and filter parameters. -/
theorem claim_list_requests_read_only :
    ∀ (s : Store) (tags ingredients assigned_only : Option String) (u : Nat),
      (list_recipes_request s tags ingredients u).2 = s ∧
      (list_tags_request s assigned_only u).2 = s ∧
      (list_ingredients_request s assigned_only u).2 = s := by
  intro s tags ingredients assigned_only u
  exact ⟨rfl, rfl, rfl⟩

/-- C3: a non-empty filter string containing a token that is not a valid
integer (in `tags` or in `ingredients`) makes the record list request fail
with `InvalidFilterFormat`; no partial or silently-unfiltered result is
returned. -/
theorem claim_malformed_filter_rejected :
    (∀ (db : List Recipe) (ts : String) (ingredients : Option String) (u : Nat)
        (tok : String),
      ts ≠ "" → tok ∈ splitComma ts → pyInt? tok = none →
        recipe_get_queryset db (some ts) ingredients u =
          .error .invalidFilterFormat) ∧
    (∀ (db : List Recipe) (tags : Option String) (istr : String) (u : Nat)
        (tok : String),
      istr ≠ "" → tok ∈ splitComma istr → pyInt? tok = none →
        recipe_get_queryset db tags (some istr) u =
          .error .invalidFilterFormat) := by
  constructor
  · intro db ts ingredients u tok hne hmem hbad
    have hparse : params_to_ints ts = none := by
      unfold params_to_ints
      exact intsOfTokens_eq_none hmem hbad
    have h1 : filterByParam db (some ts) Recipe.tags =
        .error .invalidFilterFormat := by
      simp only [filterByParam, if_neg hne, hparse]
    unfold recipe_get_queryset
    rw [h1]
  · intro db tags istr u tok hne hmem hbad
    have hparse : params_to_ints istr = none := by
      unfold params_to_ints
      exact intsOfTokens_eq_none hmem hbad
    have h2 : ∀ q : List Recipe, filterByParam q (some istr) Recipe.ingredients =
        .error .invalidFilterFormat := by
      intro q
      simp only [filterByParam, if_neg hne, hparse]
    unfold recipe_get_queryset
    split
    · rename_i e heq
      cases e
      rfl
    · rename_i q1 heq
      rw [h2 q1]

/-- Witness for C3: the filter string `"8,x"` (in either position) aborts
the request with `InvalidFilterFormat`. -/
theorem claim_malformed_filter_rejected_witness :
    ("8,x" : String) ≠ "" ∧ "x" ∈ splitComma "8,x" ∧ pyInt? "x" = none ∧
    recipe_get_queryset [⟨5, 1, "curry", [8], [2]⟩] (some "8,x") none 1 =
      .error .invalidFilterFormat ∧
    recipe_get_queryset [⟨5, 1, "curry", [8], [2]⟩] (some "8") (some "8,x") 1 =
      .error .invalidFilterFormat :=
  ⟨by decide, by decide, rfl,
    claim_malformed_filter_rejected.1 [⟨5, 1, "curry", [8], [2]⟩] "8,x" none 1
      "x" (by decide) (by decide) rfl,
    claim_malformed_filter_rejected.2 [⟨5, 1, "curry", [8], [2]⟩] (some "8")
      "8,x" 1 "x" (by decide) (by decide) rfl⟩

/-- C4: with both `tags` and `ingredients` present and well-formed, a record
is retained iff its tag set meets the parsed tag ids AND its ingredient
set meets the parsed ingredient ids (each condition an existential over
the supplied list), within the requesting owner's records. -/
theorem claim_filter_conjunction :
    ∀ (db : List Recipe) (ts istr : String) (u : Nat)
        (tagIds ingIds : List Int) (l : List Recipe) (r : Recipe),
      ts ≠ "" → istr ≠ "" →
      params_to_ints ts = some tagIds → params_to_ints istr = some ingIds →
      recipe_get_queryset db (some ts) (some istr) u = .ok l →
      (r ∈ l ↔ r ∈ db ∧ r.user = u ∧ (∃ t ∈ r.tags, t ∈ tagIds) ∧
        ∃ t ∈ r.ingredients, t ∈ ingIds) := by
  intro db ts istr u tagIds ingIds l r hts his hpt hpi h
  have h1 : filterByParam db (some ts) Recipe.tags =
      .ok (joinFilter db tagIds Recipe.tags) := by
    simp only [filterByParam, if_neg hts, hpt]
  have h2 : filterByParam (joinFilter db tagIds Recipe.tags) (some istr)
      Recipe.ingredients =
      .ok (joinFilter (joinFilter db tagIds Recipe.tags) ingIds
        Recipe.ingredients) := by
    simp only [filterByParam, if_neg his, hpi]
  unfold recipe_get_queryset at h
  rw [h1] at h
  simp only at h
  rw [h2] at h
  simp only [Except.ok.injEq] at h
  subst h
  rw [mem_recipeFinal, mem_joinFilter, mem_joinFilter]
  tauto

/-- Witness for C4: with `tags="9"` and `ingredients="2"`, the matching
recipe of owner 1 is retained and membership matches the conjunction. -/
theorem claim_filter_conjunction_witness :
    ("9" : String) ≠ "" ∧ ("2" : String) ≠ "" ∧
    params_to_ints "9" = some [9] ∧ params_to_ints "2" = some [2] ∧
    recipe_get_queryset [⟨5, 1, "curry", [9], [2]⟩] (some "9") (some "2") 1 =
      .ok [⟨5, 1, "curry", [9], [2]⟩] ∧
    ((⟨5, 1, "curry", [9], [2]⟩ : Recipe) ∈
        [(⟨5, 1, "curry", [9], [2]⟩ : Recipe)] ↔
      (⟨5, 1, "curry", [9], [2]⟩ : Recipe) ∈ [(⟨5, 1, "curry", [9], [2]⟩ : Recipe)] ∧
      (⟨5, 1, "curry", [9], [2]⟩ : Recipe).user = 1 ∧
      (∃ t ∈ (⟨5, 1, "curry", [9], [2]⟩ : Recipe).tags, t ∈ [(9 : Int)]) ∧
      ∃ t ∈ (⟨5, 1, "curry", [9], [2]⟩ : Recipe).ingredients, t ∈ [(2 : Int)]) :=
  ⟨by decide, by decide, rfl, rfl, rfl,
    claim_filter_conjunction [⟨5, 1, "curry", [9], [2]⟩] "9" "2" 1 [9] [2]
      [⟨5, 1, "curry", [9], [2]⟩] ⟨5, 1, "curry", [9], [2]⟩ (by decide)
      (by decide) rfl rfl rfl⟩

/-- C5: parsing `"8,9"` yields `[8, 9]`; absent or empty filter strings mean
no filtering at all: the result is the full owner-scoped collection
(ordered and de-duplicated), and empty-string filters behave exactly like
absent ones. -/
theorem claim_parse_and_absent_filters :
    params_to_ints "8,9" = some [8, 9] ∧
    ∀ (db : List Recipe) (u : Nat),
      recipe_get_queryset db none none u =
        .ok (((db.filter (fun r => decide (r.user = u))).insertionSort
          recipeDescId).dedup) ∧
      recipe_get_queryset db (some "") (some "") u =
        recipe_get_queryset db none none u :=
  ⟨by decide, fun db u => ⟨rfl, rfl⟩⟩

/-- C6: with `assigned_only=1` the attribute list retains exactly the
owner's attributes with at least one associated record (those with zero
associated records are excluded); with `assigned_only` absent or `0`, all
owner-scoped attributes are included. -/
theorem claim_assigned_only_filter :
    (∀ (db : List Attr) (u : Nat) (l : List Attr) (a : Attr),
      attr_get_queryset db (some "1") u = .ok l →
        (a ∈ l ↔ a ∈ db ∧ a.user = u ∧ a.recipes ≠ [])) ∧
    (∀ (db : List Attr) (u : Nat) (l : List Attr) (a : Attr) (p : Option String),
      (p = none ∨ p = some "0") → attr_get_queryset db p u = .ok l →
        (a ∈ l ↔ a ∈ db ∧ a.user = u)) := by
  constructor
  · intro db u l a h
    have h1 : attr_get_queryset db (some "1") u =
        .ok ((((db.flatMap (fun x => x.recipes.map (fun _ => x))).filter
          (fun x => decide (x.user = u))).insertionSort attrDescName).dedup) := rfl
    rw [h1] at h
    simp only [Except.ok.injEq] at h
    subst h
    rw [mem_attrFinal, mem_assignedJoin]
    tauto
  · intro db u l a p hp h
    have h1 : attr_get_queryset db p u =
        .ok (((db.filter (fun x => decide (x.user = u))).insertionSort
          attrDescName).dedup) := by
      rcases hp with rfl | rfl <;> rfl
    rw [h1] at h
    simp only [Except.ok.injEq] at h
    subst h
    exact mem_attrFinal

/-- Witness for C6: of two attributes of owner 1, only the one assigned to a
recipe survives `assigned_only=1`; both survive when it is absent. -/
theorem claim_assigned_only_filter_witness :
    (attr_get_queryset [⟨1, 1, "basil", []⟩, ⟨2, 1, "salt", [5]⟩] (some "1") 1 =
      .ok [⟨2, 1, "salt", [5]⟩]) ∧
    ((⟨2, 1, "salt", [5]⟩ : Attr) ∈ [(⟨2, 1, "salt", [5]⟩ : Attr)] ↔
      (⟨2, 1, "salt", [5]⟩ : Attr) ∈ [⟨1, 1, "basil", []⟩, ⟨2, 1, "salt", [5]⟩] ∧
      (⟨2, 1, "salt", [5]⟩ : Attr).user = 1 ∧
      (⟨2, 1, "salt", [5]⟩ : Attr).recipes ≠ []) ∧
    (attr_get_queryset [⟨1, 1, "basil", []⟩, ⟨2, 1, "salt", [5]⟩] none 1 =
      .ok [⟨2, 1, "salt", [5]⟩, ⟨1, 1, "basil", []⟩]) ∧
    ((⟨1, 1, "basil", []⟩ : Attr) ∈
        [(⟨2, 1, "salt", [5]⟩ : Attr), ⟨1, 1, "basil", []⟩] ↔
      (⟨1, 1, "basil", []⟩ : Attr) ∈ [⟨1, 1, "basil", []⟩, ⟨2, 1, "salt", [5]⟩] ∧
      (⟨1, 1, "basil", []⟩ : Attr).user = 1) :=
  ⟨rfl,
    claim_assigned_only_filter.1 [⟨1, 1, "basil", []⟩, ⟨2, 1, "salt", [5]⟩] 1
      [⟨2, 1, "salt", [5]⟩] ⟨2, 1, "salt", [5]⟩ rfl,
    rfl,
    claim_assigned_only_filter.2 [⟨1, 1, "basil", []⟩, ⟨2, 1, "salt", [5]⟩] 1
      [⟨2, 1, "salt", [5]⟩, ⟨1, 1, "basil", []⟩] ⟨1, 1, "basil", []⟩ none
      (Or.inl rfl) rfl⟩

/-- C7: every successfully resolved result list is duplicate-free: a record
or attribute that matched via several tag/ingredient associations still
appears exactly once. -/
theorem claim_results_deduplicated :
    (∀ (db : List Recipe) (tags ingredients : Option String) (u : Nat)
        (l : List Recipe),
      recipe_get_queryset db tags ingredients u = .ok l → l.Nodup) ∧
    (∀ (db : List Attr) (p : Option String) (u : Nat) (l : List Attr),
      attr_get_queryset db p u = .ok l → l.Nodup) := by
  constructor
  · intro db tags ingredients u l h
    obtain ⟨q, rfl⟩ := recipe_get_queryset_ok_shape h
    exact List.nodup_dedup _
  · intro db p u l h
    obtain ⟨q, rfl⟩ := attr_get_queryset_ok_shape h
    exact List.nodup_dedup _

/-- Witness for C7 at the spec's example: filtering by `tags="8,9"` where
the sole recipe has tags `{9, 10}` returns that recipe exactly once. -/
theorem claim_results_deduplicated_witness :
    recipe_get_queryset [⟨5, 1, "curry", [9, 10], []⟩] (some "8,9") none 1 =
      .ok [⟨5, 1, "curry", [9, 10], []⟩] ∧
    ([(⟨5, 1, "curry", [9, 10], []⟩ : Recipe)]).Nodup :=
  ⟨rfl,
    claim_results_deduplicated.1 [⟨5, 1, "curry", [9, 10], []⟩] (some "8,9")
      none 1 [⟨5, 1, "curry", [9, 10], []⟩] rfl⟩

/-- C8: every successfully resolved result is deterministically ordered:
record lists descending by id, attribute lists descending by name, for
every filter combination. -/
theorem claim_results_ordered :
    (∀ (db : List Recipe) (tags ingredients : Option String) (u : Nat)
        (l : List Recipe),
      recipe_get_queryset db tags ingredients u = .ok l →
        l.Sorted recipeDescId) ∧
    (∀ (db : List Attr) (p : Option String) (u : Nat) (l : List Attr),
      attr_get_queryset db p u = .ok l → l.Sorted attrDescName) := by
  constructor
  · intro db tags ingredients u l h
    obtain ⟨q, rfl⟩ := recipe_get_queryset_ok_shape h
    exact List.Pairwise.sublist (List.dedup_sublist _)
      (List.sorted_insertionSort recipeDescId _)
  · intro db p u l h
    obtain ⟨q, rfl⟩ := attr_get_queryset_ok_shape h
    exact List.Pairwise.sublist (List.dedup_sublist _)
      (List.sorted_insertionSort attrDescName _)

/-- Witness for C8: two recipes come back with ids 7 then 5, sorted
descending; two attributes come back names "salt" then "basil", sorted
descending. -/
theorem claim_results_ordered_witness :
    (recipe_get_queryset [⟨5, 1, "curry", [], []⟩, ⟨7, 1, "stew", [], []⟩]
      none none 1 = .ok [⟨7, 1, "stew", [], []⟩, ⟨5, 1, "curry", [], []⟩]) ∧
    ([(⟨7, 1, "stew", [], []⟩ : Recipe), ⟨5, 1, "curry", [], []⟩]).Sorted
      recipeDescId ∧
    (attr_get_queryset [⟨1, 1, "basil", []⟩, ⟨2, 1, "salt", []⟩] none 1 =
      .ok [⟨2, 1, "salt", []⟩, ⟨1, 1, "basil", []⟩]) ∧
    ([(⟨2, 1, "salt", []⟩ : Attr), ⟨1, 1, "basil", []⟩]).Sorted attrDescName :=
  ⟨rfl,
    claim_results_ordered.1 [⟨5, 1, "curry", [], []⟩, ⟨7, 1, "stew", [], []⟩]
      none none 1 [⟨7, 1, "stew", [], []⟩, ⟨5, 1, "curry", [], []⟩] rfl,
    rfl,
    claim_results_ordered.2 [⟨1, 1, "basil", []⟩, ⟨2, 1, "salt", []⟩] none 1
      [⟨2, 1, "salt", []⟩, ⟨1, 1, "basil", []⟩] rfl⟩

/-- C10 (implicit): any valid integer string is accepted for
`assigned_only` and the assigned-only filter is applied iff the integer is
non-zero, so `assigned_only=2` or `-1` behaves exactly like
`assigned_only=1`; a non-integer string makes the request fail at the
`int()` coercion (an uncaught `ValueError`, surfaced as the same
conversion error as malformed id lists rather than a dedicated clean
rejection). -/
theorem claim_assigned_only_integer_coercion :
    (∀ (db : List Attr) (u : Nat) (s : String) (n : Int),
      pyInt? s = some n →
        attr_get_queryset db (some s) u =
          attr_get_queryset db (some (if n = 0 then "0" else "1")) u) ∧
    (∀ (db : List Attr) (u : Nat) (s : String),
      pyInt? s = none →
        attr_get_queryset db (some s) u = .error .invalidFilterFormat) := by
  constructor
  · intro db u s n hs
    have hl : parse_assigned_only (some s) = some (decide (n ≠ 0)) := by
      simp only [parse_assigned_only, hs]
      rfl
    by_cases hn : n = 0
    · subst hn
      rw [if_pos rfl]
      unfold attr_get_queryset
      rw [hl]
      rfl
    · rw [if_neg hn]
      unfold attr_get_queryset
      rw [hl]
      have hd : decide (n ≠ 0) = true := by simp [hn]
      rw [hd]
      rfl
  · intro db u s hs
    have hl : parse_assigned_only (some s) = none := by
      simp only [parse_assigned_only, hs]
      rfl
    unfold attr_get_queryset
    rw [hl]

/-- Witness for C10: `assigned_only=2` resolves exactly like
`assigned_only=1`, and `assigned_only=x` fails the coercion. -/
theorem claim_assigned_only_integer_coercion_witness :
    pyInt? "2" = some 2 ∧
    (attr_get_queryset [⟨1, 1, "basil", [4]⟩] (some "2") 1 =
      attr_get_queryset [⟨1, 1, "basil", [4]⟩]
        (some (if (2 : Int) = 0 then "0" else "1")) 1) ∧
    pyInt? "x" = none ∧
    attr_get_queryset [⟨1, 1, "basil", [4]⟩] (some "x") 1 =
      .error .invalidFilterFormat :=
  ⟨rfl,
    claim_assigned_only_integer_coercion.1 [⟨1, 1, "basil", [4]⟩] 1 "2" 2 rfl,
    rfl,
    claim_assigned_only_integer_coercion.2 [⟨1, 1, "basil", [4]⟩] 1 "x" rfl⟩

end RecipeApi
